import Mathlib

/-!
Verification development for the canpi-config crate (src/lib.rs).

The crate reconciles a JSON attribute-definition document with an INI
value-store file.  We embed the data model and the operations of
`impl Cfg` shallowly:

* `Attribute`, `ActionBehaviour`, `ConfigHash` mirror the Rust types;
  `ConfigHash = HashMap<String, Attribute>` is modelled as an association
  list with HashMap insert/lookup semantics (`chInsert`, `List.lookup`).
* file-system effects are made explicit: a file that may fail to open or
  parse is passed as an `Option` of its parsed content, and
  `write_cfg_file` returns the content it would write together with a
  flag recording whether the backup collaborator was invoked.
* the compiled JSON schema of `Cfg` (generated by `schema_for!(ConfigHash)`
  and stored in the `schema` field) is a process-wide constant; it is
  modelled by the fixed predicate `schemaIsValid` instead of a field.
* the `println!` diagnostics of `update_cfg_from_defn` are returned as a
  list of emitted messages.
-/

/-- Mirrors `enum ActionBehaviour` (Edit / Display / Hide). -/
inductive ActionBehaviour where
  | Edit
  | Display
  | Hide
deriving DecidableEq, Repr

/-- Mirrors `struct Attribute`: six fields, all strings except `action`. -/
structure Attribute where
  prompt : String
  tooltip : String
  current : String
  default : String
  format : String
  action : ActionBehaviour
deriving DecidableEq, Repr

/-- Mirrors `type ConfigHash = HashMap<String, Attribute>`: an association
list with no duplicate keys when built by the operations below. -/
abbrev ConfigHash := List (String × Attribute)

/-- `HashMap::insert`: overwrite any existing binding of `k`, else add it. -/
def chInsert (c : ConfigHash) (k : String) (v : Attribute) : ConfigHash :=
  (k, v) :: c.filter (fun p => p.1 != k)

/-- Mirrors `enum CfgError`.  The `Io`, `Json` and `Ini` variants wrap a
foreign error; we keep its message. -/
inductive CfgError where
  | Io (msg : String)
  | Schema (s : String)
  | Json (msg : String)
  | Ini (msg : String)
  | Cfg
deriving DecidableEq, Repr

/-- Mirrors `struct Cfg` minus the constant `schema` field (see header). -/
structure Cfg where
  cfg : Option ConfigHash
deriving DecidableEq, Repr

/-- The general (unnamed) section of an INI document, as the sequence of
`(key, value)` pairs yielded by `ini.general_section().iter()`. -/
structure Ini where
  general : List (String × String)
deriving DecidableEq, Repr

/-- A JSON value, as parsed by serde_json. -/
inductive Json where
  | null
  | bool (b : Bool)
  | num (n : Int)
  | str (s : String)
  | arr (elems : List Json)
  | obj (fields : List (String × Json))

/-- Schema check for one attribute object: the schema generated by
`schema_for!(ConfigHash)` requires an object providing the six fields,
the first five strings and `action` one of the three variant names. -/
def attrSchemaValid : Json → Bool
  | Json.obj fs =>
      (match fs.lookup "prompt" with
       | some (Json.str _) => true
       | _ => false) &&
      (match fs.lookup "tooltip" with
       | some (Json.str _) => true
       | _ => false) &&
      (match fs.lookup "current" with
       | some (Json.str _) => true
       | _ => false) &&
      (match fs.lookup "default" with
       | some (Json.str _) => true
       | _ => false) &&
      (match fs.lookup "format" with
       | some (Json.str _) => true
       | _ => false) &&
      (match fs.lookup "action" with
       | some (Json.str s) => s == "Edit" || s == "Display" || s == "Hide"
       | _ => false)
  | _ => false

/-- `schema.is_valid(&json_value)` for the `ConfigHash` schema: the
document must be an object each of whose member values is a valid
attribute object. -/
def schemaIsValid : Json → Bool
  | Json.obj entries => entries.all (fun p => attrSchemaValid p.2)
  | _ => false

/-- serde string field decoding. -/
def decodeString : Json → Except CfgError String
  | Json.str s => Except.ok s
  | _ => Except.error (CfgError.Json "invalid type: expected a string")

/-- serde decoding of `ActionBehaviour` from its variant name. -/
def decodeAction : Json → Except CfgError ActionBehaviour
  | Json.str "Edit" => Except.ok ActionBehaviour.Edit
  | Json.str "Display" => Except.ok ActionBehaviour.Display
  | Json.str "Hide" => Except.ok ActionBehaviour.Hide
  | _ => Except.error (CfgError.Json "unknown variant of ActionBehaviour")

/-- serde required-field access: a missing field is a `Json` error. -/
def reqField (fs : List (String × Json)) (name : String) :
    Except CfgError Json :=
  match fs.lookup name with
  | some v => Except.ok v
  | none => Except.error (CfgError.Json ("missing field " ++ name))

/-- serde decoding of one `Attribute` object. -/
def decodeAttribute : Json → Except CfgError Attribute
  | Json.obj fs => do
      let prompt ← reqField fs "prompt" >>= decodeString
      let tooltip ← reqField fs "tooltip" >>= decodeString
      let current ← reqField fs "current" >>= decodeString
      let dflt ← reqField fs "default" >>= decodeString
      let format ← reqField fs "format" >>= decodeString
      let action ← reqField fs "action" >>= decodeAction
      Except.ok (Attribute.mk prompt tooltip current dflt format action)
  | _ => Except.error (CfgError.Json "invalid type: expected a map")

/-- serde decoding of a whole `ConfigHash` document
(`serde_json::from_value::<ConfigHash>`). -/
def decodeConfigHash : Json → Except CfgError ConfigHash
  | Json.obj entries =>
      entries.mapM (fun p => do
        let a ← decodeAttribute p.2
        Except.ok (p.1, a))
  | _ => Except.error (CfgError.Json "invalid type: expected a map")

/-- `Cfg::read_defn_file`.  The file argument is `none` when the file
cannot be opened or is not valid JSON (the `?` on `File::open` /
`from_reader`); `path` is `some` the path string when it is valid UTF-8.
On a schema-valid document the JSON is decoded; otherwise the path is
reported in a `Schema` error and the document is never decoded. -/
def read_defn_file (file : Option Json) (path : Option String) :
    Except CfgError ConfigHash :=
  match file with
  | none => Except.error (CfgError.Io "cannot open configuration file")
  | some json_value =>
      if schemaIsValid json_value then
        decodeConfigHash json_value
      else
        match path with
        | some f => Except.error (CfgError.Schema f)
        | none => Except.error (CfgError.Schema "(non-utf8 path")

/-- `Cfg::read_attribute`. -/
def read_attribute (c : Cfg) (key : String) : Option Attribute :=
  match c.cfg with
  | some m => m.lookup key
  | none => none

/-- `Cfg::write_attribute`: insert into a clone of the hash and store it
back; error `CfgError::Cfg()` when the hash was never initialised. -/
def write_attribute (c : Cfg) (key : String) (value : Attribute) :
    Except CfgError Cfg :=
  match c.cfg with
  | some m => Except.ok (Cfg.mk (some (chInsert m key value)))
  | none => Except.error CfgError.Cfg

/-- `Cfg::attributes_with_action`: a fresh hash extended with the entries
whose `action` equals the argument; empty when `cfg` is `None`. -/
def attributes_with_action (c : Cfg) (action : ActionBehaviour) :
    ConfigHash :=
  match c.cfg with
  | some m => m.filter (fun p => p.2.action == action)
  | none => []

/-- What `Cfg::write_cfg_file` does to the outside world: the INI content
written, if any, and whether the backup collaborator was invoked. -/
structure WriteResult where
  written : Option Ini
  backupInvoked : Bool
deriving DecidableEq, Repr

/-- `Cfg::write_cfg_file`: when the hash is present, emit one
`(key, current)` pair per entry into the unnamed section, run the backup
when `make_backup` is `Some(true)`, and write; when the hash is `None`,
do nothing and return `Ok(())`. -/
def write_cfg_file (c : Cfg) (make_backup : Option Bool) :
    Except CfgError WriteResult :=
  match c.cfg with
  | some cfgh =>
      let ini : Ini := Ini.mk (cfgh.map (fun p => (p.1, p.2.current)))
      let do_backup : Bool :=
        match make_backup with
        | some b => b
        | none => false
      Except.ok (WriteResult.mk (some ini) do_backup)
  | none => Except.ok (WriteResult.mk none false)

/-- One iteration of the loop of `Cfg::update_cfg_from_defn`: a pair whose
key is defined gets inserted with `current` overwritten; an unknown key
only appends a diagnostic line. -/
def reconStep (defn : ConfigHash) (acc : ConfigHash × List String)
    (p : String × String) : ConfigHash × List String :=
  match defn.lookup p.1 with
  | some aref =>
      (chInsert acc.1 p.1
        { aref with current := p.2 }, acc.2)
  | none =>
      (acc.1, acc.2 ++ ["Key " ++ p.1 ++ " not defined in configuration"])

/-- `Cfg::update_cfg_from_defn`: load the INI file (`none` models
`Ini::load_from_file` failing, e.g. the file does not exist), build a new
hash from the general section, and store it.  Returns the updated `Cfg`
and the diagnostics printed for unknown keys. -/
def update_cfg_from_defn (c : Cfg) (defn : ConfigHash) (ini : Option Ini) :
    Except CfgError (Cfg × List String) :=
  match ini with
  | none => Except.error (CfgError.Ini "cannot read/write cfg file")
  | some i =>
      let r := i.general.foldl (reconStep defn) ([], [])
      Except.ok ({ c with cfg := some r.1 }, r.2)

/-- `Cfg::load_configuration`: read the definition file then reconcile
with the value-store file. -/
def load_configuration (c : Cfg) (cfgFile : Option Ini)
    (defFile : Option Json) (defPath : Option String) :
    Except CfgError (Cfg × List String) :=
  match read_defn_file defFile defPath with
  | Except.error e => Except.error e
  | Except.ok defn => update_cfg_from_defn c defn cfgFile


/-!  Helper lemmas about hash insertion and the reconciliation fold. -/

/-- The last value bound to `k` by the pairs of an INI general section:
this is the value a left fold of HashMap inserts leaves in place. -/
def lastVal (ps : List (String × String)) (k : String) : Option String :=
  match ps with
  | [] => none
  | p :: rest =>
      match lastVal rest k with
      | some v => some v
      | none => if p.1 == k then some p.2 else none

/-- Case summary of a reconciliation lookup: a definition hit together
with a value-store hit yields the overwritten attribute, anything else
falls back. -/
def mergeLookup (da : Option Attribute) (lv : Option String)
    (fallback : Option Attribute) : Option Attribute :=
  match da, lv with
  | some a, some v => some { a with current := v }
  | _, _ => fallback

/-- Concrete attribute taken from the repository's DEFN_DATA fixture
(the format pattern is abridged). -/
def attrCanid : Attribute :=
  Attribute.mk "CAN Id" "The CAN Id used by the CAN Pi CAP/Zero on the CBUS"
    "100" "100" "[0-9]" ActionBehaviour.Display

/-- A one-entry definition store. -/
def defnCanid : ConfigHash := [("canid", attrCanid)]

/-- A one-entry value store assigning `canid=101`. -/
def iniCanid : Ini := Ini.mk [("canid", "101")]

/-- A value store whose only key is absent from `defnCanid`. -/
def iniUnknown : Ini := Ini.mk [("extra_key", "7")]

/-- The node_mode entry of the repository's BAD_DATA fixture: the
required field `prompt` is missing. -/
def badNodeMode : Json :=
  Json.obj [("tooltip", Json.str ""), ("current", Json.str "0"),
    ("default", Json.str "0"), ("format", Json.str "[0-9]"),
    ("action", Json.str "Hide")]

/-- A definition document with an entry missing a required field. -/
def badDefnJson : Json := Json.obj [("node_mode", badNodeMode)]

/-- JSON form of `attrCanid`. -/
def attrCanidJson : Json :=
  Json.obj [("prompt", Json.str "CAN Id"),
    ("tooltip",
      Json.str "The CAN Id used by the CAN Pi CAP/Zero on the CBUS"),
    ("current", Json.str "100"), ("default", Json.str "100"),
    ("format", Json.str "[0-9]"), ("action", Json.str "Display")]

/-- A schema-valid definition document that decodes to `defnCanid`. -/
def goodDefnJson : Json := Json.obj [("canid", attrCanidJson)]

theorem mergeLookup_none_left (lv : Option String)
    (fb : Option Attribute) : mergeLookup none lv fb = fb := by
  cases lv <;> rfl

theorem mergeLookup_some_some (a : Attribute) (v : String)
    (fb : Option Attribute) :
    mergeLookup (some a) (some v) fb = some { a with current := v } := rfl

theorem mergeLookup_some_none (a : Attribute) (fb : Option Attribute) :
    mergeLookup (some a) none fb = fb := rfl

theorem lastVal_nil (k : String) : lastVal [] k = none := rfl

theorem lastVal_cons (pk pv : String) (rest : List (String × String))
    (k : String) :
    lastVal ((pk, pv) :: rest) k =
      match lastVal rest k with
      | some v => some v
      | none => if pk == k then some pv else none := rfl

theorem filter_ne_lookup (c : ConfigHash) (k k' : String) (h : k' ≠ k) :
    (c.filter (fun p => p.1 != k)).lookup k' = c.lookup k' := by
  induction c with
  | nil => rfl
  | cons p rest ih =>
      obtain ⟨pk, pv⟩ := p
      by_cases hp : pk = k
      · rw [List.filter_cons_of_neg (by simp [hp]), ih, List.lookup_cons]
        have hb : (k' == pk) = false := by
          rw [hp]
          exact beq_false_of_ne h
        rw [hb]
      · rw [List.filter_cons_of_pos (by simp [hp]), List.lookup_cons,
          List.lookup_cons, ih]

theorem chInsert_lookup_self (c : ConfigHash) (k : String) (v : Attribute) :
    (chInsert c k v).lookup k = some v := by
  simp [chInsert, List.lookup_cons]

theorem chInsert_lookup_ne (c : ConfigHash) (k k' : String) (v : Attribute)
    (h : k' ≠ k) : (chInsert c k v).lookup k' = c.lookup k' := by
  have hb : (k' == k) = false := beq_false_of_ne h
  rw [chInsert, List.lookup_cons, hb]
  exact filter_ne_lookup c k k' h

theorem reconStep_fst (defn : ConfigHash) (acc : ConfigHash × List String)
    (pk pv : String) :
    (reconStep defn acc (pk, pv)).1 =
      match defn.lookup pk with
      | some aref => chInsert acc.1 pk { aref with current := pv }
      | none => acc.1 := by
  cases hp : defn.lookup pk with
  | some aref => simp [reconStep, hp]
  | none => simp [reconStep, hp]

theorem reconStep_lookup_ne (defn : ConfigHash)
    (acc : ConfigHash × List String) (pk pv k : String) (h : k ≠ pk) :
    (reconStep defn acc (pk, pv)).1.lookup k = acc.1.lookup k := by
  rw [reconStep_fst]
  cases hp : defn.lookup pk with
  | none => rfl
  | some aref => exact chInsert_lookup_ne _ _ _ _ h

theorem reconStep_lookup_undefined (defn : ConfigHash)
    (acc : ConfigHash × List String) (pk pv k : String)
    (h : defn.lookup k = none) :
    (reconStep defn acc (pk, pv)).1.lookup k = acc.1.lookup k := by
  by_cases hk : k = pk
  · subst hk
    rw [reconStep_fst, h]
  · exact reconStep_lookup_ne _ _ _ _ _ hk

theorem reconFold_lookup (defn : ConfigHash) (ps : List (String × String))
    (acc : ConfigHash × List String) (k : String) :
    ((ps.foldl (reconStep defn) acc).1).lookup k =
      mergeLookup (defn.lookup k) (lastVal ps k) (acc.1.lookup k) := by
  induction ps generalizing acc with
  | nil =>
      rw [List.foldl_nil, lastVal_nil]
      cases hd : defn.lookup k with
      | none => rw [mergeLookup_none_left]
      | some a => rw [mergeLookup_some_none]
  | cons p rest ih =>
      obtain ⟨pk, pv⟩ := p
      rw [List.foldl_cons, ih]
      cases hd : defn.lookup k with
      | none =>
          rw [mergeLookup_none_left, mergeLookup_none_left]
          exact reconStep_lookup_undefined _ _ _ _ _ hd
      | some a =>
          cases hrest : lastVal rest k with
          | some v =>
              have hcons : lastVal ((pk, pv) :: rest) k = some v := by
                rw [lastVal_cons, hrest]
              rw [hcons, mergeLookup_some_some, mergeLookup_some_some]
          | none =>
              by_cases hk : pk = k
              · have hcons : lastVal ((pk, pv) :: rest) k = some pv := by
                  rw [lastVal_cons, hrest]
                  simp [hk]
                rw [hcons, mergeLookup_some_none, mergeLookup_some_some]
                subst hk
                rw [reconStep_fst, hd]
                exact chInsert_lookup_self _ _ _
              · have hcons : lastVal ((pk, pv) :: rest) k = none := by
                  rw [lastVal_cons, hrest]
                  simp [hk]
                rw [hcons, mergeLookup_some_none, mergeLookup_some_none]
                exact reconStep_lookup_ne _ _ _ _ _ (fun h => hk h.symm)

theorem reconStep_snd (defn : ConfigHash) (acc : ConfigHash × List String)
    (pk pv : String) :
    (reconStep defn acc (pk, pv)).2 =
      match defn.lookup pk with
      | some _ => acc.2
      | none =>
          acc.2 ++ ["Key " ++ pk ++ " not defined in configuration"] := by
  cases hp : defn.lookup pk with
  | some aref => simp [reconStep, hp]
  | none => simp [reconStep, hp]

theorem reconStep_snd_mono (defn : ConfigHash)
    (acc : ConfigHash × List String) (p : String × String) (d : String)
    (h : d ∈ acc.2) : d ∈ (reconStep defn acc p).2 := by
  obtain ⟨pk, pv⟩ := p
  rw [reconStep_snd]
  cases hp : defn.lookup pk with
  | some aref => exact h
  | none => exact List.mem_append_left _ h

theorem reconFold_diag_mono (defn : ConfigHash)
    (ps : List (String × String)) (acc : ConfigHash × List String)
    (d : String) (h : d ∈ acc.2) :
    d ∈ (ps.foldl (reconStep defn) acc).2 := by
  induction ps generalizing acc with
  | nil => exact h
  | cons p rest ih =>
      rw [List.foldl_cons]
      exact ih _ (reconStep_snd_mono _ _ _ _ h)

theorem reconFold_diag_mem (defn : ConfigHash)
    (ps : List (String × String)) (acc : ConfigHash × List String)
    (k v : String) (hm : (k, v) ∈ ps) (hd : defn.lookup k = none) :
    ("Key " ++ k ++ " not defined in configuration") ∈
      (ps.foldl (reconStep defn) acc).2 := by
  induction ps generalizing acc with
  | nil => cases hm
  | cons p rest ih =>
      rw [List.foldl_cons]
      rcases List.mem_cons.mp hm with hh | ht
      · apply reconFold_diag_mono
        rw [← hh, reconStep_snd, hd]
        exact List.mem_append_right _ (List.mem_singleton.mpr rfl)
      · exact ih _ ht

theorem lastVal_isSome_iff (ps : List (String × String)) (k : String) :
    (lastVal ps k).isSome = true ↔ k ∈ ps.map Prod.fst := by
  induction ps with
  | nil => simp [lastVal_nil]
  | cons p rest ih =>
      obtain ⟨pk, pv⟩ := p
      rw [lastVal_cons]
      cases hrest : lastVal rest k with
      | some v =>
          have hmem : k ∈ List.map Prod.fst rest :=
            ih.mp (by rw [hrest]; rfl)
          simp [hmem]
      | none =>
          have hrestmem : k ∉ List.map Prod.fst rest := by
            intro hmem
            have hs := ih.mpr hmem
            rw [hrest] at hs
            simp at hs
          by_cases hk : pk = k
          · subst hk
            simp
          · simp [hk, Ne.symm hk, hrestmem]

theorem lastVal_none_of_not_mem (ps : List (String × String)) (k : String)
    (h : k ∉ ps.map Prod.fst) : lastVal ps k = none := by
  cases hv : lastVal ps k with
  | none => rfl
  | some v =>
      exact absurd ((lastVal_isSome_iff ps k).mp (by rw [hv]; rfl)) h

theorem lastVal_eq_of_nodup (ps : List (String × String)) (k v : String)
    (hnd : (ps.map Prod.fst).Nodup) (hm : (k, v) ∈ ps) :
    lastVal ps k = some v := by
  induction ps with
  | nil => cases hm
  | cons p rest ih =>
      obtain ⟨pk, pv⟩ := p
      rw [List.map_cons, List.nodup_cons] at hnd
      rw [lastVal_cons]
      rcases List.mem_cons.mp hm with hh | ht
      · have hk : pk = k := (congrArg Prod.fst hh).symm
        have hv : pv = v := (congrArg Prod.snd hh).symm
        have hnone : lastVal rest k = none := by
          apply lastVal_none_of_not_mem
          rw [← hk]
          exact hnd.1
        rw [hnone, hk, hv]
        simp
      · rw [ih hnd.2 ht]

/-!  Claim theorems. -/

/-- C9: if the value-store file given to `update_cfg_from_defn` (and thus
to `load_configuration`) does not exist, `Ini::load_from_file` fails and
the error is propagated to the caller as an `Ini` error; the operation is
not a silent no-op leaving defaults in place. -/
theorem C9_missing_value_store_errors (c : Cfg) (defn : ConfigHash) :
    update_cfg_from_defn c defn none =
      Except.error (CfgError.Ini "cannot read/write cfg file") := rfl

/-- C10: `write_cfg_file` on a `Cfg` whose store was never loaded returns
`Ok(())` while writing no file and never invoking the backup
collaborator, instead of failing with the uninitialised-store error. -/
theorem C10_write_uninitialized_silent_ok (mb : Option Bool) :
    write_cfg_file (Cfg.mk none) mb =
      Except.ok (WriteResult.mk none false) := rfl

/-- C4: `write_attribute` fails with `CfgError::Cfg()` exactly when the
store was never loaded; on a loaded store it inserts-or-overwrites the
key with the full supplied definition and succeeds even for a previously
absent key, after which `read_attribute` returns that definition. -/
theorem C4_write_attribute_contract (c : Cfg) (key : String)
    (v : Attribute) :
    (write_attribute c key v = Except.error CfgError.Cfg ↔ c.cfg = none) ∧
    (∀ m, c.cfg = some m →
      write_attribute c key v =
          Except.ok (Cfg.mk (some (chInsert m key v))) ∧
        read_attribute (Cfg.mk (some (chInsert m key v))) key = some v) := by
  constructor
  · cases hc : c.cfg with
    | none => simp [write_attribute, hc]
    | some m => simp [write_attribute, hc]
  · intro m hm
    constructor
    · simp [write_attribute, hm]
    · show (chInsert m key v).lookup key = some v
      exact chInsert_lookup_self m key v

/-- Witness for C4 at the empty loaded store and the uninitialised
store, with a previously absent key. -/
theorem C4_write_attribute_contract_witness :
    (write_attribute (Cfg.mk none) "start_event_id" attrCanid =
      Except.error CfgError.Cfg) ∧
    (write_attribute (Cfg.mk (some [])) "start_event_id" attrCanid =
        Except.ok (Cfg.mk (some (chInsert [] "start_event_id" attrCanid))) ∧
      read_attribute (Cfg.mk (some (chInsert [] "start_event_id" attrCanid)))
          "start_event_id" = some attrCanid) :=
  ⟨(C4_write_attribute_contract (Cfg.mk none) "start_event_id"
      attrCanid).1.mpr rfl,
   (C4_write_attribute_contract (Cfg.mk (some [])) "start_event_id"
      attrCanid).2 [] rfl⟩

/-- C5: on a loaded store, `attributes_with_action` is a pure function of
the store (the receiver is untouched) whose result contains exactly the
entries whose `action` equals the requested class; an empty result is a
legitimate value. -/
theorem C5_filter_by_action (c : Cfg) (m : ConfigHash)
    (hm : c.cfg = some m) (act : ActionBehaviour) (p : String × Attribute) :
    p ∈ attributes_with_action c act ↔ p ∈ m ∧ p.2.action = act := by
  simp [attributes_with_action, hm, List.mem_filter]

/-- Witness for C5: the canid fixture is Display, hence in the Display
filtrate. -/
theorem C5_filter_by_action_witness :
    ("canid", attrCanid) ∈
        attributes_with_action (Cfg.mk (some defnCanid))
          ActionBehaviour.Display ↔
      ("canid", attrCanid) ∈ defnCanid ∧
        attrCanid.action = ActionBehaviour.Display :=
  C5_filter_by_action (Cfg.mk (some defnCanid)) defnCanid rfl
    ActionBehaviour.Display ("canid", attrCanid)

/-- C6: on a loaded store, `write_cfg_file` writes exactly the map of the
store's entries to their `(key, current)` pairs into the unnamed section;
no other field of any attribute appears in the output. -/
theorem C6_write_serializes_currents (c : Cfg) (m : ConfigHash)
    (hm : c.cfg = some m) (mb : Option Bool) (r : WriteResult)
    (h : write_cfg_file c mb = Except.ok r) :
    r.written = some (Ini.mk (m.map (fun p => (p.1, p.2.current)))) := by
  simp [write_cfg_file, hm] at h
  rw [← h]

/-- Witness for C6 at the canid fixture. -/
theorem C6_write_serializes_currents_witness :
    (WriteResult.mk (some (Ini.mk [("canid", "100")])) false).written =
      some (Ini.mk (defnCanid.map (fun p => (p.1, p.2.current)))) :=
  C6_write_serializes_currents (Cfg.mk (some defnCanid)) defnCanid rfl
    none (WriteResult.mk (some (Ini.mk [("canid", "100")])) false) rfl

/-- C3: a document failing schema validation makes `read_defn_file`
return a `Schema` error carrying the file path, and such a document is
never decoded: any successful result presupposes a passed validation and
comes from decoding the validated document. -/
theorem C3_schema_gate :
    (∀ (j : Json) (p : String), schemaIsValid j = false →
      read_defn_file (some j) (some p) =
        Except.error (CfgError.Schema p)) ∧
    (∀ (j : Json) (p : Option String) (cfgh : ConfigHash),
      read_defn_file (some j) p = Except.ok cfgh →
      schemaIsValid j = true ∧ decodeConfigHash j = Except.ok cfgh) := by
  constructor
  · intro j p h
    simp [read_defn_file, h]
  · intro j p cfgh h
    cases hv : schemaIsValid j with
    | true =>
        refine ⟨rfl, ?_⟩
        simpa [read_defn_file, hv] using h
    | false =>
        exfalso
        cases p with
        | some f => simp [read_defn_file, hv] at h
        | none => simp [read_defn_file, hv] at h

/-- Witness for C3: the BAD_DATA-style fixture missing `prompt` fails
validation and yields a Schema error carrying the path. -/
theorem C3_schema_gate_witness :
    schemaIsValid badDefnJson = false ∧
    read_defn_file (some badDefnJson)
        (some "scratch/single_malformed_vector.json") =
      Except.error
        (CfgError.Schema "scratch/single_malformed_vector.json") :=
  ⟨rfl, C3_schema_gate.1 badDefnJson "scratch/single_malformed_vector.json"
    rfl⟩

/-- C7: reconciling the same definitions against the same value-store a
second time returns exactly the result of the first reconciliation: the
new hash is rebuilt from the definitions and the value-store only, so
the pass is idempotent. -/
theorem C7_reconcile_idempotent (c : Cfg) (defn : ConfigHash)
    (ini : Option Ini) (r : Cfg × List String)
    (h : update_cfg_from_defn c defn ini = Except.ok r) :
    update_cfg_from_defn r.1 defn ini = Except.ok r := by
  have hgen : update_cfg_from_defn r.1 defn ini =
      update_cfg_from_defn c defn ini := by
    cases ini with
    | none => rfl
    | some i => rfl
  rw [hgen]
  exact h

/-- Witness for C7 at the canid fixture. -/
theorem C7_reconcile_idempotent_witness :
    update_cfg_from_defn
        (Cfg.mk (some [("canid", { attrCanid with current := "101" })]))
        defnCanid (some iniCanid) =
      Except.ok
        (Cfg.mk (some [("canid", { attrCanid with current := "101" })]),
          []) :=
  C7_reconcile_idempotent (Cfg.mk none) defnCanid (some iniCanid)
    (Cfg.mk (some [("canid", { attrCanid with current := "101" })]), [])
    rfl

/-- C8: a value-store pair whose key is not defined never fails
reconciliation: the operation still succeeds, the resulting store has no
entry at that key, and a diagnostic naming the key is emitted. -/
theorem C8_unknown_key_tolerated (c : Cfg) (defn : ConfigHash) (ini : Ini)
    (k v : String) (hmem : (k, v) ∈ ini.general)
    (hd : defn.lookup k = none) :
    ∃ r, update_cfg_from_defn c defn (some ini) = Except.ok r ∧
      (∀ m, r.1.cfg = some m → m.lookup k = none) ∧
      ("Key " ++ k ++ " not defined in configuration") ∈ r.2 := by
  refine ⟨_, rfl, ?_, ?_⟩
  · intro m hm2
    have hm3 : m = (ini.general.foldl (reconStep defn) ([], [])).1 :=
      (Option.some.inj hm2).symm
    rw [hm3, reconFold_lookup, hd, mergeLookup_none_left]
    rfl
  · exact reconFold_diag_mem defn ini.general ([], []) k v hmem hd

/-- Witness for C8 with the unknown key `extra_key`. -/
theorem C8_unknown_key_tolerated_witness :
    ∃ r, update_cfg_from_defn (Cfg.mk none) defnCanid (some iniUnknown) =
        Except.ok r ∧
      (∀ m, r.1.cfg = some m → m.lookup "extra_key" = none) ∧
      ("Key " ++ "extra_key" ++ " not defined in configuration") ∈ r.2 :=
  C8_unknown_key_tolerated (Cfg.mk none) defnCanid iniUnknown
    "extra_key" "7" (List.mem_singleton.mpr rfl) rfl

/-- C1 counterexample: a full successful `load_configuration` from a
valid document defining `canid` (current `100`) and an empty value-store
yields a store in which `canid` is absent, although the claim requires
it to be present with its pre-reconciliation `current`. -/
theorem C1_counterexample :
    load_configuration (Cfg.mk none) (some (Ini.mk []))
        (some goodDefnJson) (some "scratch/update_test.json") =
      Except.ok (Cfg.mk (some []), []) ∧
    defnCanid.lookup "canid" = some attrCanid ∧
    read_attribute (Cfg.mk (some []), ([] : List String)).1 "canid" =
      none :=
  ⟨rfl, rfl, rfl⟩

/-- C1 (amended): after a successful reconciliation the resulting store
has exactly the keys present both in the definition store and in the
value-store's unnamed section; a key of the definitions that does not
appear in the value-store is dropped rather than kept with its
pre-reconciliation `current`. -/
theorem C1_amended_keys (c : Cfg) (defn : ConfigHash) (ini : Ini)
    (r : Cfg × List String)
    (h : update_cfg_from_defn c defn (some ini) = Except.ok r)
    (m : ConfigHash) (hm : r.1.cfg = some m) (k : String) :
    (m.lookup k).isSome = true ↔
      (k ∈ ini.general.map Prod.fst ∧ (defn.lookup k).isSome = true) := by
  have hx : (Cfg.mk (some (ini.general.foldl (reconStep defn) ([], [])).1),
      (ini.general.foldl (reconStep defn) ([], [])).2) = r :=
    Except.ok.inj h
  have hm3 : m = (ini.general.foldl (reconStep defn) ([], [])).1 := by
    rw [← hx] at hm
    exact (Option.some.inj hm).symm
  rw [hm3, reconFold_lookup]
  cases hd : defn.lookup k with
  | none =>
      rw [mergeLookup_none_left]
      simp
  | some a =>
      cases hl : lastVal ini.general k with
      | some w =>
          rw [mergeLookup_some_some]
          have hmem : k ∈ ini.general.map Prod.fst :=
            (lastVal_isSome_iff _ _).mp (by rw [hl]; rfl)
          simp [hmem]
      | none =>
          rw [mergeLookup_some_none]
          have hnmem : k ∉ ini.general.map Prod.fst := by
            intro hmm
            have hs := (lastVal_isSome_iff ini.general k).mpr hmm
            rw [hl] at hs
            simp at hs
          simp [hnmem]

/-- Witness for the amended C1 at the canid fixture. -/
theorem C1_amended_keys_witness :
    ((([("canid", { attrCanid with current := "101" })] :
          ConfigHash).lookup "canid").isSome = true ↔
      ("canid" ∈ iniCanid.general.map Prod.fst ∧
        (defnCanid.lookup "canid").isSome = true)) :=
  C1_amended_keys (Cfg.mk none) defnCanid iniCanid
    (Cfg.mk (some [("canid", { attrCanid with current := "101" })]), [])
    rfl [("canid", { attrCanid with current := "101" })] rfl "canid"

/-- C2: when a value-store pair's key is defined, reconciliation stores
the definition entry with `current` replaced by the value-store value
and with `prompt`, `tooltip`, `default`, `format` and `action` all
unchanged. -/
theorem C2_reconcile_overwrites_current (c : Cfg) (defn : ConfigHash)
    (ini : Ini) (hnd : (ini.general.map Prod.fst).Nodup)
    (k v : String) (a : Attribute) (hmem : (k, v) ∈ ini.general)
    (hd : defn.lookup k = some a) (r : Cfg × List String)
    (h : update_cfg_from_defn c defn (some ini) = Except.ok r)
    (m : ConfigHash) (hm : r.1.cfg = some m) :
    m.lookup k =
      some (Attribute.mk a.prompt a.tooltip v a.default a.format
        a.action) := by
  have hx : (Cfg.mk (some (ini.general.foldl (reconStep defn) ([], [])).1),
      (ini.general.foldl (reconStep defn) ([], [])).2) = r :=
    Except.ok.inj h
  have hm3 : m = (ini.general.foldl (reconStep defn) ([], [])).1 := by
    rw [← hx] at hm
    exact (Option.some.inj hm).symm
  have hl : lastVal ini.general k = some v :=
    lastVal_eq_of_nodup _ _ _ hnd hmem
  rw [hm3, reconFold_lookup, hd, hl, mergeLookup_some_some]

/-- Witness for C2 at the canid fixture: `canid=101` overwrites only
`current`. -/
theorem C2_reconcile_overwrites_current_witness :
    (([("canid", { attrCanid with current := "101" })] :
        ConfigHash).lookup "canid") =
      some (Attribute.mk attrCanid.prompt attrCanid.tooltip "101"
        attrCanid.default attrCanid.format attrCanid.action) :=
  C2_reconcile_overwrites_current (Cfg.mk none) defnCanid iniCanid
    (by decide) "canid" "101" attrCanid (List.mem_singleton.mpr rfl) rfl
    (Cfg.mk (some [("canid", { attrCanid with current := "101" })]), [])
    rfl [("canid", { attrCanid with current := "101" })] rfl
